import Mathlib

/-!
Shallow embedding of the rollout-and-update engine of the ppo_and_friends
trainer (src/ppo.py and src/environments/general_wrappers.py), together with
theorems settling the specification claims about it.

Conventions: python floats are modelled by rationals (or by a generic linear
ordered field where transcendental functions appear, passed in as function
parameters); numpy boolean arrays by lists of Bool; the per-agent dictionaries
of the rollout by functions from agent ids (naturals) to lists indexed by the
environment-batch index.
-/

namespace PpoAndFriends

/-! ### Timestep budget distribution (PPO.__init__ and the rollout loop)

Source src/ppo.py lines 139-153: the constructor argument is divided across
workers with python int(ts_per_rollout / num_procs), which for nonnegative
integers is truncating (floor) division.  Lines 989-999: each worker then
steps its environment while total_rollout_ts < self.ts_per_rollout, adding
env_batch_size per step.  Line 1396/1403: the per-worker totals are summed
across the num_procs workers and added to status["general"]["timesteps"].
-/

/-- Source PPO.__init__: ts_per_rollout = int(ts_per_rollout / num_procs). -/
def perWorkerTsPerRollout (tsPerRollout numProcs : ℕ) : ℕ :=
  tsPerRollout / numProcs

/-- Source PPO.rollout main loop, restricted to the timestep counter:
while total_rollout_ts < budget: total_rollout_ts += env_batch_size.
The fuel argument bounds the iteration count; fuel = budget suffices
whenever batch is at least 1. -/
def collectLoop (budget batch : ℕ) : ℕ → ℕ → ℕ
  | 0, ts => ts
  | fuel + 1, ts =>
      if ts < budget then collectLoop budget batch fuel (ts + batch) else ts

/-- Timesteps a single worker collects in one rollout. -/
def totalRolloutTs (budget batch : ℕ) : ℕ :=
  collectLoop budget batch budget 0

/-- Source PPO.rollout line 1396: total_rollout_ts = comm.allreduce(..., SUM);
all workers run the same deterministic counter loop, so the reduced value is
numProcs copies of the per-worker total.  This is the amount added to
status["general"]["timesteps"]. -/
def globalRolloutTs (tsPerRollout numProcs batch : ℕ) : ℕ :=
  numProcs * totalRolloutTs (perWorkerTsPerRollout tsPerRollout numProcs) batch

lemma collectLoop_ge (budget batch : ℕ) (hb : 1 ≤ batch) :
    ∀ fuel ts, budget ≤ ts + fuel → budget ≤ collectLoop budget batch fuel ts := by
  intro fuel
  induction fuel with
  | zero => intro ts h; simpa [collectLoop] using h
  | succ n ih =>
      intro ts h
      by_cases hlt : ts < budget
      · simp only [collectLoop, hlt, if_true]
        exact ih (ts + batch) (by omega)
      · simp only [collectLoop, hlt, if_false]
        omega

lemma collectLoop_lt (budget batch : ℕ) :
    ∀ fuel ts, ts < budget + batch → collectLoop budget batch fuel ts < budget + batch := by
  intro fuel
  induction fuel with
  | zero => intro ts h; simpa [collectLoop] using h
  | succ n ih =>
      intro ts h
      by_cases hlt : ts < budget
      · simp only [collectLoop, hlt, if_true]
        exact ih (ts + batch) (by omega)
      · simpa [collectLoop, hlt] using h

lemma collectLoop_dvd (budget batch : ℕ) :
    ∀ fuel ts, batch ∣ ts → batch ∣ collectLoop budget batch fuel ts := by
  intro fuel
  induction fuel with
  | zero => intro ts h; simpa [collectLoop] using h
  | succ n ih =>
      intro ts h
      by_cases hlt : ts < budget
      · simp only [collectLoop, hlt, if_true]
        exact ih (ts + batch) (Dvd.dvd.add h dvd_rfl)
      · simpa [collectLoop, hlt] using h

lemma collectLoop_one (budget : ℕ) :
    ∀ fuel ts, budget ≤ ts + fuel → collectLoop budget 1 fuel ts = max ts budget := by
  intro fuel
  induction fuel with
  | zero => intro ts h; simp [collectLoop]; omega
  | succ n ih =>
      intro ts h
      by_cases hlt : ts < budget
      · simp only [collectLoop, hlt, if_true]
        rw [ih (ts + 1) (by omega)]
        omega
      · simp only [collectLoop, hlt, if_false]
        omega

/-- With an environment batch size of 1, a worker collects exactly its budget. -/
lemma totalRolloutTs_one (budget : ℕ) : totalRolloutTs budget 1 = budget := by
  unfold totalRolloutTs
  rw [collectLoop_one budget budget 0 (by omega)]
  omega

/-- Claim C10: the trainer distributes a requested rollout budget T by giving
each of the W workers floor(T / W) timesteps (truncating integer division);
each worker collects timesteps in increments of the environment batch size
until it reaches that budget (so at least the budget, overshooting by less
than one batch, always a multiple of the batch size); the global count added
to the status is W times the per-worker count, and when W does not divide T
the effective global budget W * floor(T / W) is silently below T. -/
theorem c10_ts_distribution (T W batch : ℕ) (hW : 1 ≤ W) (hb : 1 ≤ batch) :
    perWorkerTsPerRollout T W = T / W ∧
    perWorkerTsPerRollout T W ≤ totalRolloutTs (perWorkerTsPerRollout T W) batch ∧
    totalRolloutTs (perWorkerTsPerRollout T W) batch < perWorkerTsPerRollout T W + batch ∧
    batch ∣ totalRolloutTs (perWorkerTsPerRollout T W) batch ∧
    globalRolloutTs T W batch = W * totalRolloutTs (perWorkerTsPerRollout T W) batch ∧
    globalRolloutTs T W 1 = W * (T / W) ∧
    (¬ W ∣ T → W * (T / W) < T) := by
  refine ⟨rfl, ?_, ?_, ?_, rfl, ?_, ?_⟩
  · exact collectLoop_ge _ batch hb _ 0 (by omega)
  · exact collectLoop_lt _ batch _ 0 (by omega)
  · exact collectLoop_dvd _ batch _ 0 (dvd_zero batch)
  · unfold globalRolloutTs
    rw [totalRolloutTs_one]
    rfl
  · intro hndvd
    have hmod := Nat.div_add_mod T W
    have hne : T % W ≠ 0 := fun h => hndvd (Nat.dvd_of_mod_eq_zero h)
    omega

/-- Closed instance of c10_ts_distribution at T = 256, W = 3, batch = 2. -/
theorem c10_ts_distribution_witness :
    (1 ≤ 3 ∧ 1 ≤ 2) ∧
    (perWorkerTsPerRollout 256 3 = 256 / 3 ∧
     perWorkerTsPerRollout 256 3 ≤ totalRolloutTs (perWorkerTsPerRollout 256 3) 2 ∧
     totalRolloutTs (perWorkerTsPerRollout 256 3) 2 < perWorkerTsPerRollout 256 3 + 2 ∧
     2 ∣ totalRolloutTs (perWorkerTsPerRollout 256 3) 2 ∧
     globalRolloutTs 256 3 2 = 3 * totalRolloutTs (perWorkerTsPerRollout 256 3) 2 ∧
     globalRolloutTs 256 3 1 = 3 * (256 / 3) ∧
     (¬ 3 ∣ 256 → 3 * (256 / 3) < 256)) :=
  ⟨⟨by decide, by decide⟩, c10_ts_distribution 256 3 2 (by decide) (by decide)⟩

/-- Claim C9 as stated is false: with the trainer constructed with
ts_per_rollout = 256 on 2 workers (batch size 1), the rollout adds
2 * floor(256 / 2) = 256 timesteps to the status, not 256 * 2 = 512. -/
theorem c9_counterexample :
    globalRolloutTs 256 2 1 = 256 ∧ globalRolloutTs 256 2 1 ≠ 256 * 2 := by
  constructor
  · rw [show globalRolloutTs 256 2 1 = 2 * totalRolloutTs 128 1 from rfl,
      totalRolloutTs_one]
  · rw [show globalRolloutTs 256 2 1 = 2 * totalRolloutTs 128 1 from rfl,
      totalRolloutTs_one]
    decide

/-- Claim C9, amended: with the trainer constructed with ts_per_rollout = 256
and W workers (environment batch size 1), one rollout increases
status["general"]["timesteps"] by exactly W * floor(256 / W); this equals 256
whenever W divides 256 (in particular for a single worker), not 256 * W. -/
theorem c9_amended (W : ℕ) (hW : 1 ≤ W) :
    globalRolloutTs 256 W 1 = W * (256 / W) ∧
    (W ∣ 256 → globalRolloutTs 256 W 1 = 256) := by
  have h : globalRolloutTs 256 W 1 = W * (256 / W) := by
    unfold globalRolloutTs
    rw [totalRolloutTs_one]
    rfl
  exact ⟨h, fun hd => by rw [h, Nat.mul_div_cancel' hd]⟩

/-- Closed instance of c9_amended at W = 4. -/
theorem c9_amended_witness :
    1 ≤ 4 ∧ (globalRolloutTs 256 4 1 = 4 * (256 / 4) ∧
      (4 ∣ 256 → globalRolloutTs 256 4 1 = 256)) :=
  ⟨by decide, c9_amended 4 (by decide)⟩

/-! ### Multi-agent space refinement (MultiAgentWrapper._get_refined_space)

Source src/environments/general_wrappers.py lines 646-739.  The method first
walks the per-agent spaces checking that all agents share one space type and
one dtype (aborting the worker group otherwise), then builds the single
refined space whose size is the maximum member size, plus one when an
agent-id channel is prepended.
-/

/-- Gym space constructors that can appear as members of a multi-agent space. -/
inductive SpaceKind
  | box
  | discrete
  | multiDiscrete
  | multiBinary
deriving DecidableEq

/-- Numpy dtypes carried by gym spaces. -/
inductive NpDtype
  | float32
  | float64
  | int64
  | int8
deriving DecidableEq

/-- The data of one agent's space that the consistency check inspects. -/
structure SpaceSig where
  kind : SpaceKind
  dtype : NpDtype
deriving DecidableEq

/-- Outcome of the consistency loop: either it falls through, or it calls
comm.Abort with a mixed-types or a mixed-dtypes diagnostic. -/
inductive SpaceCheck
  | ok
  | mixedTypes
  | mixedDtypes
deriving DecidableEq

/-- Source lines 649-680, loop state after the first iteration.  At each
iteration the loop first compares prev_space_type with space_type (and
prev_dtype with dtype) and only afterwards shifts space_type to the type of
the current element; the current element itself is compared one iteration
later, if any. -/
def spaceTypeCheckAux : List SpaceSig → SpaceKind → SpaceKind → NpDtype → NpDtype → SpaceCheck
  | [], _, _, _, _ => .ok
  | s :: rest, spaceType, prevSpaceType, dtype, prevDtype =>
      if prevSpaceType ≠ spaceType then .mixedTypes
      else if prevDtype ≠ dtype then .mixedDtypes
      else spaceTypeCheckAux rest s.kind spaceType s.dtype dtype

/-- Source lines 646-680: the full consistency check.  On the first iteration
all four state variables are initialised from the first element, so its
comparison trivially passes and the state entering the second iteration is
(space_type = prev = first.kind, dtype = prev = first.dtype). -/
def spaceTypeCheck : List SpaceSig → SpaceCheck
  | [] => .ok
  | s0 :: rest => spaceTypeCheckAux rest s0.kind s0.kind s0.dtype s0.dtype

/-- Claim C4 names a real bug: the consistency loop compares state that lags
one element behind, so a type or dtype mismatch introduced by the last member
space is never compared and no configuration abort happens.  Concretely, a
two-agent environment with a Box(float32) space and a Discrete(int64) space
passes the check (first conjunct) even though both the kinds and the dtypes
differ (second and third conjuncts); the same mismatch one position earlier,
followed by another space, is detected (fourth conjunct), confirming the
off-by-one rather than an intentionally weaker contract. -/
theorem c4_mismatch_not_detected :
    spaceTypeCheck [⟨.box, .float32⟩, ⟨.discrete, .int64⟩] = .ok ∧
    (⟨.box, .float32⟩ : SpaceSig).kind ≠ (⟨.discrete, .int64⟩ : SpaceSig).kind ∧
    (⟨.box, .float32⟩ : SpaceSig).dtype ≠ (⟨.discrete, .int64⟩ : SpaceSig).dtype ∧
    spaceTypeCheck [⟨.box, .float32⟩, ⟨.discrete, .int64⟩, ⟨.discrete, .int64⟩] =
      .mixedTypes := by
  decide

/-! ### Box space padding and observation refinement

Source lines 690-739 (size computation for Box members) and lines 833-856
(MultiAgentWrapper._refine_obs).
-/

/-- Source lines 690-724 restricted to Box members: count starts at 0 and is
raised to each member's size; with agent ids one extra slot is added. -/
def refinedBoxSize (sizes : List ℕ) (addIds : Bool) : ℕ :=
  let count := sizes.foldl max 0
  if addIds then count + 1 else count

/-- Numpy np.stack along a new leading axis: defined only when every row has
the same shape, otherwise it raises ValueError (modelled as none). -/
def npStack (rows : List (List ℚ)) : Option (List (List ℚ)) :=
  match rows with
  | [] => none
  | r :: rest => if rest.all (fun x => x.length = r.length) then some (r :: rest) else none

/-- Source MultiAgentWrapper._refine_obs (lines 833-856): stack the per-agent
observations, optionally prepend the (normalised) agent id column, then pad
the trailing axis with zeros up to the refined observation-space size.  The
np.stack failure on ragged per-agent observations propagates as none. -/
def refineObs (spaceSize : ℕ) (needAgentIds : Bool) (agentIds : List ℚ)
    (obs : List (List ℚ)) : Option (List (List ℚ)) :=
  match npStack obs with
  | none => none
  | some stacked =>
      let withIds := if needAgentIds then List.zipWith (fun i r => i :: r) agentIds stacked
        else stacked
      let width := (withIds.headD []).length
      let sizeDiff := spaceSize - width
      some (withIds.map (fun r => r ++ List.replicate sizeDiff 0))

/-- Claim C5: for Box member sizes {3, 5, 2} the refined space size is the
maximum 5 (6 with the agent-id channel), at least 5 either way — that part of
the claim holds.  But the claimed zero-padding of the size-3 agent's
observation never happens: _refine_obs stacks the per-agent observations with
np.stack, which raises on ragged rows, so a step in which the agents emit
observations of sizes 3, 5 and 2 errors out instead of padding (the padding
branch only applies when every agent emits the same length, contradicting the
code's own comment that differing sizes are zero padded for congruity). -/
theorem c5_ragged_obs_not_padded :
    refinedBoxSize [3, 5, 2] false = 5 ∧
    refinedBoxSize [3, 5, 2] true = 6 ∧
    5 ≤ refinedBoxSize [3, 5, 2] false ∧
    5 ≤ refinedBoxSize [3, 5, 2] true ∧
    refineObs 6 true [0, 1/3, 2/3]
      [[1, 2, 3], [4, 5, 6, 7, 8], [9, 10]] = none := by
  decide

/-! ### Death masking (MultiAgentWrapper._refine_dones, lines 858-888)

The wrapper treats the shared environment as done only when every agent is
done.  With death masking enabled and only some agents done, the numpy
assignment obs[agents_done, 1:] = 0.0 zeroes every component of a done
agent's refined observation except the leading agent-id entry, and the whole
done array is replaced by all-False.
-/

/-- Effect of obs[agents_done, 1:] = 0.0 on a single row: rows of done agents
keep their leading entry and have the rest zeroed, other rows are untouched. -/
def maskDeadRow (done : Bool) (row : List ℚ) : List ℚ :=
  if done then
    match row with
    | [] => []
    | h :: t => h :: t.map (fun _ => (0 : ℚ))
  else row

/-- Source MultiAgentWrapper._refine_dones: returns the refined done array,
the combined all-done flag, and the (possibly death-masked) observations. -/
def refineDones (deathMask : Bool) (numAgents : ℕ) (agentsDone : List Bool)
    (obs : List (List ℚ)) : List Bool × Bool × List (List ℚ) :=
  if agentsDone.all (fun d => d = true) then (agentsDone, true, obs)
  else if deathMask then
    (List.replicate numAgents false, false, List.zipWith maskDeadRow agentsDone obs)
  else (agentsDone, false, obs)

/-- Claim C6: three agents share one environment index, agents 0 and 1 are
done and agent 2 is not, death masking enabled.  The refined dones (which the
wrapper's step returns) are False for every agent, the environment is not
reported done, the two done agents' observations are zeroed everywhere except
the leading agent-id entry, and the live agent's observation is untouched. -/
theorem c6_death_masking (r0 r1 r2 : List ℚ) :
    (refineDones true 3 [true, true, false] [r0, r1, r2]).1 = [false, false, false] ∧
    (refineDones true 3 [true, true, false] [r0, r1, r2]).2.1 = false ∧
    ((refineDones true 3 [true, true, false] [r0, r1, r2]).2.2.getD 0 []).head? = r0.head? ∧
    (((refineDones true 3 [true, true, false] [r0, r1, r2]).2.2.getD 0 []).tail.all
      (fun x => x = 0)) = true ∧
    ((refineDones true 3 [true, true, false] [r0, r1, r2]).2.2.getD 1 []).head? = r1.head? ∧
    (((refineDones true 3 [true, true, false] [r0, r1, r2]).2.2.getD 1 []).tail.all
      (fun x => x = 0)) = true ∧
    (refineDones true 3 [true, true, false] [r0, r1, r2]).2.2.getD 2 [] = r2 := by
  have hmask : ∀ r : List ℚ, ((maskDeadRow true r).head? = r.head? ∧
      ((maskDeadRow true r).tail.all (fun x => x = 0)) = true) := by
    intro r
    cases r with
    | nil => simp [maskDeadRow]
    | cons h t => simp [maskDeadRow, List.all_eq_true]
  refine ⟨rfl, rfl, ?_, ?_, ?_, ?_, ?_⟩
  · simpa [refineDones] using (hmask r0).1
  · simpa [refineDones] using (hmask r0).2
  · simpa [refineDones] using (hmask r1).1
  · simpa [refineDones] using (hmask r1).2
  · simp [refineDones, maskDeadRow]

/-! ### Soft resets (IdentityWrapper.soft_reset lines 169-182 and
MultiAgentWrapper.soft_reset lines 991-1006)

Both methods return the cached observation when a hard reset is not needed
and the cache is populated; neither method mutates the wrapper state, so a
second call without an intervening step sees the same state.  The wrapper
state is the pair (need_hard_reset, obs_cache); the environment's reset is an
external effect modelled as a fixed function parameter, invoked only on the
hard-reset path.
-/

/-- Wrapper state relevant to soft resets. -/
structure WrapperState (Obs : Type) where
  needHardReset : Bool
  obsCache : Option Obs
deriving DecidableEq

/-- Source IdentityWrapper.soft_reset for a base-level wrapper (the wrapped
environment offers no soft_reset of its own, so _env_soft_reset returns the
obs cache): hard reset when required or when the cache is empty, otherwise
the cached observation.  The returned state is unchanged — none of the
branches assigns to need_hard_reset or obs_cache. -/
def identitySoftReset {Obs : Type} (resetFn : Unit → Obs) (s : WrapperState Obs) :
    Obs × WrapperState Obs :=
  if s.needHardReset then (resetFn (), s)
  else
    match s.obsCache with
    | none => (resetFn (), s)
    | some c => (c, s)

/-- Source MultiAgentWrapper.get_feature_pruned_global_state for environments
without their own implementation: with the global state enabled the flattened
observation batch is broadcast to every agent, otherwise the local
observations are returned as-is. -/
def prunedGlobalState (useGlobalState : Bool) (numAgents : ℕ)
    (obs : List (List ℚ)) : List (List ℚ) :=
  if useGlobalState then List.replicate numAgents obs.flatten else obs

/-- Source MultiAgentWrapper.soft_reset: returns the cached local
observations together with the derived global state; state unchanged. -/
def multiAgentSoftReset (resetFn : Unit → List (List ℚ) × List (List ℚ))
    (useGlobalState : Bool) (numAgents : ℕ) (s : WrapperState (List (List ℚ))) :
    (List (List ℚ) × List (List ℚ)) × WrapperState (List (List ℚ)) :=
  if s.needHardReset then (resetFn (), s)
  else
    match s.obsCache with
    | none => (resetFn (), s)
    | some c => ((c, prunedGlobalState useGlobalState numAgents c), s)

/-- Claim C7: with a populated cache and no pending hard reset, calling
soft_reset twice in a row without an intervening step returns the same cached
observation both times, for both the identity wrapper and the multi-agent
wrapper (whose second component is the global state derived from the same
cache). -/
theorem c7_soft_reset_idempotent {Obs : Type} (resetFn : Unit → Obs)
    (maResetFn : Unit → List (List ℚ) × List (List ℚ)) (useGlobalState : Bool)
    (numAgents : ℕ) (s : WrapperState Obs) (ms : WrapperState (List (List ℚ)))
    (c : Obs) (mc : List (List ℚ))
    (hs : s.needHardReset = false) (hc : s.obsCache = some c)
    (hms : ms.needHardReset = false) (hmc : ms.obsCache = some mc) :
    (identitySoftReset resetFn s).1 = c ∧
    identitySoftReset resetFn ((identitySoftReset resetFn s).2) =
      identitySoftReset resetFn s ∧
    (multiAgentSoftReset maResetFn useGlobalState numAgents ms).1.1 = mc ∧
    multiAgentSoftReset maResetFn useGlobalState numAgents
        ((multiAgentSoftReset maResetFn useGlobalState numAgents ms).2) =
      multiAgentSoftReset maResetFn useGlobalState numAgents ms := by
  refine ⟨?_, ?_, ?_, ?_⟩ <;>
    simp [identitySoftReset, multiAgentSoftReset, hs, hc, hms, hmc]

/-- Closed instance of c7_soft_reset_idempotent on a concrete cached state. -/
theorem c7_soft_reset_idempotent_witness :
    ((WrapperState.mk false (some [(1 : ℚ), 2]) : WrapperState (List ℚ)).needHardReset
        = false ∧
      (WrapperState.mk false (some [(1 : ℚ), 2]) : WrapperState (List ℚ)).obsCache
        = some [(1 : ℚ), 2] ∧
      (WrapperState.mk false (some [[(3 : ℚ)], [4]]) :
        WrapperState (List (List ℚ))).needHardReset = false ∧
      (WrapperState.mk false (some [[(3 : ℚ)], [4]]) :
        WrapperState (List (List ℚ))).obsCache = some [[(3 : ℚ)], [4]]) ∧
    ((identitySoftReset (fun _ => ([] : List ℚ))
        (WrapperState.mk false (some [(1 : ℚ), 2]))).1 = [(1 : ℚ), 2] ∧
      identitySoftReset (fun _ => ([] : List ℚ))
          ((identitySoftReset (fun _ => ([] : List ℚ))
            (WrapperState.mk false (some [(1 : ℚ), 2]))).2) =
        identitySoftReset (fun _ => ([] : List ℚ))
          (WrapperState.mk false (some [(1 : ℚ), 2])) ∧
      (multiAgentSoftReset (fun _ => ([], [])) true 2
        (WrapperState.mk false (some [[(3 : ℚ)], [4]]))).1.1 = [[(3 : ℚ)], [4]] ∧
      multiAgentSoftReset (fun _ => ([], [])) true 2
          ((multiAgentSoftReset (fun _ => ([], [])) true 2
            (WrapperState.mk false (some [[(3 : ℚ)], [4]]))).2) =
        multiAgentSoftReset (fun _ => ([], [])) true 2
          (WrapperState.mk false (some [[(3 : ℚ)], [4]]))) :=
  ⟨⟨rfl, rfl, rfl, rfl⟩,
    c7_soft_reset_idempotent (fun _ => ([] : List ℚ)) (fun _ => ([], [])) true 2
      (WrapperState.mk false (some [(1 : ℚ), 2]))
      (WrapperState.mk false (some [[(3 : ℚ)], [4]]))
      [(1 : ℚ), 2] [[(3 : ℚ)], [4]] rfl rfl rfl rfl⟩

/-! ### Clipped-surrogate actor loss (PPO._ppo_batch_train, lines 1582-1651)

The minibatch update computes ratios = exp(curr_log_probs - log_probs),
surr1 = ratios * advantages, surr2 = clamp(ratios, 1-clip, 1+clip) *
advantages, actor_loss = (-min(surr1, surr2)).mean(), with the advantages
normalised at the minibatch level first when normalize_adv is set (lines
1585-1593, using the unbiased torch standard deviation and an epsilon of
1e-8).  Entropy bonus and KL penalty are added only afterwards (lines
1648-1658).  The float arithmetic is modelled over a generic linear ordered
field with exp and sqrt passed in as function parameters, so the definitions
stay executable and instantiate to the reals with Real.exp and Real.sqrt.
-/

/-- Mean of a tensor, .mean(). -/
def listMeanF {α : Type} [LinearOrderedField α] (xs : List α) : α :=
  xs.sum / (xs.length : α)

/-- torch.clamp(x, lo, hi): lower bound applied first, then the upper. -/
def torchClamp {α : Type} [LinearOrderedField α] (x lo hi : α) : α :=
  min (max x lo) hi

/-- Source line 1605: ratios = torch.exp(curr_log_probs - log_probs). -/
def ratioList {α : Type} [LinearOrderedField α] (expFn : α → α)
    (currLogProbs logProbs : List α) : List α :=
  List.zipWith (fun c l => expFn (c - l)) currLogProbs logProbs

/-- Unbiased torch standard deviation, .std(). -/
def advantageStd {α : Type} [LinearOrderedField α] (sqrtFn : α → α)
    (adv : List α) : α :=
  sqrtFn (((adv.map (fun a => (a - listMeanF adv) ^ 2)).sum) / ((adv.length : α) - 1))

/-- Source lines 1585-1593: minibatch-level advantage normalisation,
(advantages - advantages.mean()) / (advantages.std() + 1e-8). -/
def normalizeAdvantages {α : Type} [LinearOrderedField α] (sqrtFn : α → α)
    (adv : List α) : List α :=
  adv.map (fun a => (a - listMeanF adv) / (advantageStd sqrtFn adv + 1 / 100000000))

/-- Source lines 1585-1645: the actor loss of one minibatch update before the
optional entropy bonus and KL penalty, including the optional advantage
normalisation. -/
def ppoBatchActorLoss {α : Type} [LinearOrderedField α] (normalizeAdv : Bool)
    (sqrtFn expFn : α → α) (surrClip : α) (currLogProbs logProbs advRaw : List α) : α :=
  let advantages := if normalizeAdv then normalizeAdvantages sqrtFn advRaw else advRaw
  let ratios := ratioList expFn currLogProbs logProbs
  let surrA := List.zipWith (fun r a => r * a) ratios advantages
  let surrB := List.zipWith
    (fun r a => torchClamp r (1 - surrClip) (1 + surrClip) * a) ratios advantages
  listMeanF (List.zipWith (fun sa sb => -(min sa sb)) surrA surrB)

/-- Modelled from the spec: the actor loss formula
mean(-min(r*A, clip(r, 1-eps, 1+eps)*A)) with r = exp(new_log_prob -
old_log_prob), clipping written as bounding r into the interval
[1-eps, 1+eps]. -/
def specClippedSurrogateLoss {α : Type} [LinearOrderedField α] (expFn : α → α)
    (eps : α) (newLogProbs oldLogProbs A : List α) : α :=
  listMeanF (List.zipWith
    (fun r a => -(min (r * a) (max (1 - eps) (min r (1 + eps)) * a)))
    (List.zipWith (fun nl ol => expFn (nl - ol)) newLogProbs oldLogProbs) A)

lemma torchClamp_eq_clip {α : Type} [LinearOrderedField α] (x lo hi : α)
    (h : lo ≤ hi) : torchClamp x lo hi = max lo (min x hi) := by
  unfold torchClamp
  rw [max_min_distrib_left, max_comm lo x, max_eq_right h]

lemma zipWith_pair {α : Type} (f g h : α → α → α) :
    ∀ (xs ys : List α),
      List.zipWith f (List.zipWith g xs ys) (List.zipWith h xs ys) =
        List.zipWith (fun x y => f (g x y) (h x y)) xs ys := by
  intro xs
  induction xs with
  | nil => intro ys; simp
  | cons x xt ih =>
      intro ys
      cases ys with
      | nil => simp
      | cons y yt => simp [ih]

/-- Claim C2: for every minibatch update, the actor loss computed by
_ppo_batch_train before the optional entropy and KL-penalty terms equals the
spec formula mean(-min(r*A, clip(r, 1-eps, 1+eps)*A)) with
r = exp(new_log_prob - old_log_prob), where A is the minibatch advantage,
normalised at the minibatch level exactly when advantage normalisation is
enabled, for any nonnegative surrogate clip ratio. -/
theorem c2_actor_loss_clipped_surrogate {α : Type} [LinearOrderedField α]
    (normalizeAdv : Bool) (sqrtFn expFn : α → α) (eps : α) (heps : 0 ≤ eps)
    (currLogProbs logProbs advRaw : List α) :
    ppoBatchActorLoss normalizeAdv sqrtFn expFn eps currLogProbs logProbs advRaw =
      specClippedSurrogateLoss expFn eps currLogProbs logProbs
        (if normalizeAdv then normalizeAdvantages sqrtFn advRaw else advRaw) := by
  unfold ppoBatchActorLoss specClippedSurrogateLoss ratioList
  dsimp only
  rw [zipWith_pair]
  have hcl : (1 : α) - eps ≤ 1 + eps := by linarith
  have hfun : (fun (r a : α) => -(min (r * a) (torchClamp r (1 - eps) (1 + eps) * a))) =
      fun r a => -(min (r * a) (max (1 - eps) (min r (1 + eps)) * a)) := by
    funext r a
    rw [torchClamp_eq_clip r (1 - eps) (1 + eps) hcl]
  rw [hfun]

/-- Closed instance of c2_actor_loss_clipped_surrogate over the rationals. -/
theorem c2_actor_loss_clipped_surrogate_witness :
    (0 : ℚ) ≤ 1 ∧
    ppoBatchActorLoss true id id (1 : ℚ) [1, 2, 3] [2, 1, 1] [4, -1, 2] =
      specClippedSurrogateLoss id (1 : ℚ) [1, 2, 3] [2, 1, 1]
        (if true then normalizeAdvantages id [4, -1, 2] else [4, -1, 2]) :=
  ⟨zero_le_one,
    c2_actor_loss_clipped_surrogate true id id (1 : ℚ) zero_le_one
      [1, 2, 3] [2, 1, 1] [4, -1, 2]⟩

/-! ### KL-based early epoch stopping (PPO.learn lines 1467-1501 and
PPO._ppo_batch_train lines 1551-1754)

Each epoch of a policy's update loop runs _ppo_batch_train, which accumulates
current_kl = (log_probs - curr_log_probs).mean() over its minibatches
(skipping minibatches with a single observation), allreduce-sums the totals
and the minibatch counters across workers, and writes total_kl / counter into
status[policy]["kl avg"].  Back in learn, the loop breaks out — skipping the
remaining epochs of the current iteration for that policy — as soon as the
freshly recorded kl avg strictly exceeds the policy's target_kl.  Nothing is
raised; the status keeps the value written by the epoch that completed.
-/

/-- One minibatch's log-prob data for the KL bookkeeping.  The length of the
lists is the minibatch size (obs.shape[0]). -/
structure KlBatch where
  oldLogProbs : List ℚ
  newLogProbs : List ℚ
deriving DecidableEq

/-- Source line 1611: current_kl = (log_probs - curr_log_probs).mean(). -/
def batchKl (b : KlBatch) : ℚ :=
  listMeanF (List.zipWith (fun ol nl => ol - nl) b.oldLogProbs b.newLogProbs)

/-- Source lines 1565-1566: minibatches with a single observation are skipped
before contributing to the totals or the counter. -/
def countedBatches (batches : List KlBatch) : List KlBatch :=
  batches.filter (fun b => b.oldLogProbs.length != 1)

/-- The kl avg one epoch records: per-worker sums of current_kl and counts of
counted minibatches, allreduce-summed across all workers, then divided. -/
def epochKlAvg (workers : List (List KlBatch)) : ℚ :=
  ((workers.map (fun w => ((countedBatches w).map batchKl).sum)).sum) /
    (((workers.map (fun w => (countedBatches w).length)).sum : ℕ) : ℚ)

/-- Result of one policy's epoch loop within one training iteration. -/
structure EpochLoopResult where
  epochsRun : ℕ
  klAvg : ℚ
deriving DecidableEq

/-- Source PPO.learn lines 1467-1501 restricted to one policy: iterate over
the epochs; each epoch writes its kl avg into the status, and the loop breaks
when that value strictly exceeds target_kl.  The arguments of the recursion
are the remaining epoch count, the index of the next epoch to run, and the kl
avg currently in the status. -/
def klEpochLoop (targetKl : ℚ) (epochData : ℕ → List (List KlBatch)) :
    ℕ → ℕ → ℚ → EpochLoopResult
  | 0, e, kl => ⟨e, kl⟩
  | fuel + 1, e, _ =>
      if targetKl < epochKlAvg (epochData e) then ⟨e + 1, epochKlAvg (epochData e)⟩
      else klEpochLoop targetKl epochData fuel (e + 1) (epochKlAvg (epochData e))

/-- One policy's epoch loop for a full iteration of epochs_per_iter epochs. -/
def runPolicyEpochs (epochsPerIter : ℕ) (targetKl : ℚ)
    (epochData : ℕ → List (List KlBatch)) (klInit : ℚ) : EpochLoopResult :=
  klEpochLoop targetKl epochData epochsPerIter 0 klInit

lemma klEpochLoop_hits (targetKl : ℚ) (epochData : ℕ → List (List KlBatch)) (e0 : ℕ)
    (hgt : targetKl < epochKlAvg (epochData e0)) :
    ∀ fuel start kl, start ≤ e0 → e0 < start + fuel →
      (∀ e, start ≤ e → e < e0 → epochKlAvg (epochData e) ≤ targetKl) →
      klEpochLoop targetKl epochData fuel start kl =
        ⟨e0 + 1, epochKlAvg (epochData e0)⟩ := by
  intro fuel
  induction fuel with
  | zero => intro start kl h1 h2 h3; omega
  | succ n ih =>
      intro start kl h1 h2 h3
      by_cases hse : start = e0
      · subst hse
        simp only [klEpochLoop]
        rw [if_pos hgt]
      · have hstart : start < e0 := by omega
        have hle := h3 start le_rfl hstart
        simp only [klEpochLoop]
        rw [if_neg (not_lt.mpr hle)]
        exact ih (start + 1) _ (by omega) (by omega)
          (fun e he1 he2 => h3 e (by omega) he2)

/-- Claim C3: if e0 is the first epoch of the iteration whose recorded mean
KL divergence — mean(old_log_prob - new_log_prob) per minibatch, summed with
the minibatch counter across workers and divided — strictly exceeds the
policy's target_kl, then the epoch loop stops after epoch e0 (epochs e0+1
onward are skipped for this iteration; this is an ordinary loop break, not an
error), and status[policy]["kl avg"] holds exactly the value recorded by that
last completed epoch. -/
theorem c3_kl_early_stop (epochsPerIter : ℕ) (targetKl klInit : ℚ)
    (epochData : ℕ → List (List KlBatch)) (e0 : ℕ) (he : e0 < epochsPerIter)
    (hgt : targetKl < epochKlAvg (epochData e0))
    (hbefore : ∀ e, e < e0 → epochKlAvg (epochData e) ≤ targetKl) :
    runPolicyEpochs epochsPerIter targetKl epochData klInit =
      ⟨e0 + 1, epochKlAvg (epochData e0)⟩ :=
  klEpochLoop_hits targetKl epochData e0 hgt epochsPerIter 0 klInit (by omega)
    (by omega) (fun e _ h2 => hbefore e h2)

/-- Closed instance of c3_kl_early_stop: target_kl = 0.015, 10 epochs per
iteration, KL of 1 first recorded by epoch index 2, so exactly 3 epochs run. -/
theorem c3_kl_early_stop_witness :
    (2 < 10 ∧
      (3 / 200 : ℚ) < epochKlAvg ((fun e => if e < 2 then
          [[KlBatch.mk [0, 0] [0, 0]]] else [[KlBatch.mk [1, 1] [0, 0]]]) 2) ∧
      (∀ e, e < 2 → epochKlAvg ((fun e => if e < 2 then
          [[KlBatch.mk [0, 0] [0, 0]]] else [[KlBatch.mk [1, 1] [0, 0]]]) e) ≤ 3 / 200)) ∧
    runPolicyEpochs 10 (3 / 200)
        (fun e => if e < 2 then
          [[KlBatch.mk [0, 0] [0, 0]]] else [[KlBatch.mk [1, 1] [0, 0]]]) 0 =
      ⟨2 + 1, epochKlAvg ((fun e => if e < 2 then
          [[KlBatch.mk [0, 0] [0, 0]]] else [[KlBatch.mk [1, 1] [0, 0]]]) 2)⟩ := by
  have h1 : (2 : ℕ) < 10 := by decide
  have h2 : (3 / 200 : ℚ) < epochKlAvg ((fun e => if e < 2 then
      [[KlBatch.mk [0, 0] [0, 0]]] else [[KlBatch.mk [1, 1] [0, 0]]]) 2) := by
    norm_num [epochKlAvg, countedBatches, batchKl, listMeanF, List.filter,
      show (2 != 1) = true from by decide]
  have h3 : ∀ e, e < 2 → epochKlAvg ((fun e => if e < 2 then
      [[KlBatch.mk [0, 0] [0, 0]]] else [[KlBatch.mk [1, 1] [0, 0]]]) e) ≤ 3 / 200 := by
    intro e he
    interval_cases e <;>
      norm_num [epochKlAvg, countedBatches, batchKl, listMeanF, List.filter,
        show (2 != 1) = true from by decide]
  exact ⟨⟨h1, h2, h3⟩, c3_kl_early_stop 10 (3 / 200) 0 _ 2 h1 h2 h3⟩

/-! ### Episode counting over one rollout (PPO.rollout lines 989-1314 and
line 1399)

Embedding of the rollout loop's episode bookkeeping for one worker driving a
single-agent environment with env_batch_size = 1 and no environment
truncation, the setting of the end-to-end scenario.  The environment is
abstracted by a termination schedule mapping the running timestep count to
the terminated flag its step returns.  Per loop iteration the counters ep_ts,
episode_lengths and total_rollout_ts advance; a terminated step (case 1 of
the episode-end cases, lines 1145-1189) bumps total_episodes and zeroes
ep_ts and episode_lengths; reaching max_ts_per_ep or the rollout budget
(cases 2 and 3, lines 1201-1311) flushes the open episode with a bootstrap
value but adds to total_episodes only the end-of-rollout fractional estimate
episode_lengths / avg_ep_len of lines 1278-1292.  The final total is
allreduce-summed (identity for one worker) and added to
status["general"]["total episodes"] at line 1399.
-/

/-- Rollout-loop counters relevant to episode counting. -/
structure RolloutCountState where
  totalTs : ℕ
  epTs : ℕ
  epLen : ℕ
  totalEpisodes : ℚ
deriving DecidableEq

/-- Source lines 1145-1189 (case 1) for batch size 1: when the step
terminated, total_episodes grows by the terminated count (1) and ep_ts and
episode_lengths are zeroed; otherwise the incremented counters stand. -/
def termCase (term : Bool) (ts epTs epLen : ℕ) (eps : ℚ) : RolloutCountState :=
  if term then ⟨ts, 0, 0, eps + 1⟩ else ⟨ts, epTs, epLen, eps⟩

/-- Source lines 1201-1311 (cases 2 and 3) for batch size 1 and no
truncation, applied after case 1: when the episode cap is freshly reached on
a non-terminated step, or the rollout budget is exhausted, the open episode
is flushed; on budget exhaustion lines 1278-1292 add the fractional estimate
episode_lengths / avg_ep_len, where avg_ep_len falls back to
combined_ep_len / env_batch_size when ts_before_ep is zero and
total_episodes is clamped up to 1 when zero; finally ep_ts is zeroed at the
maxed index unless it was already zeroed by a termination. -/
def maxedCase (budget maxTs : ℕ) (term : Bool) (s : RolloutCountState) :
    RolloutCountState :=
  if (s.epTs = maxTs ∧ term = false) ∨ budget ≤ s.totalTs then
    let eps2 : ℚ :=
      if budget ≤ s.totalTs then
        let tsBefore : ℕ := budget - s.epLen
        let currentTotal : ℚ := if s.totalEpisodes = 0 then 1 else s.totalEpisodes
        let avgEpLen : ℚ :=
          if tsBefore = 0 then (s.epLen : ℚ) / 1 else (tsBefore : ℚ) / currentTotal
        s.totalEpisodes + (s.epLen : ℚ) / avgEpLen
      else s.totalEpisodes
    let epTs2 := if term = false ∧ (budget ≤ s.totalTs ∨ maxTs ≤ s.epTs) then 0 else s.epTs
    ⟨s.totalTs, epTs2, s.epLen, eps2⟩
  else s

/-- One iteration of the rollout while-loop, restricted to the episode
bookkeeping: the timestep and per-episode counters advance (lines 994-1000),
then the two episode-end blocks run in order. -/
def rolloutCountStep (budget maxTs : ℕ) (term : ℕ → Bool)
    (s : RolloutCountState) : RolloutCountState :=
  maxedCase budget maxTs (term (s.totalTs + 1))
    (termCase (term (s.totalTs + 1)) (s.totalTs + 1) (s.epTs + 1) (s.epLen + 1)
      s.totalEpisodes)

/-- Source line 989: while total_rollout_ts < self.ts_per_rollout.  Fuel
bounds the iteration count; fuel = budget suffices for batch size 1. -/
def runRolloutCount (budget maxTs : ℕ) (term : ℕ → Bool) :
    ℕ → RolloutCountState → RolloutCountState
  | 0, s => s
  | fuel + 1, s =>
      if s.totalTs < budget then
        runRolloutCount budget maxTs term fuel (rolloutCountStep budget maxTs term s)
      else s

/-- Value of total_episodes when the rollout loop finishes, starting from the
zeroed counters of lines 927-983. -/
def rolloutTotalEpisodes (budget maxTs : ℕ) (term : ℕ → Bool) : ℚ :=
  (runRolloutCount budget maxTs term budget ⟨0, 0, 0, 0⟩).totalEpisodes

/-- Source lines 1319 and 1399 for a single worker: total_episodes is
allreduce-summed (identity) and added to the previous status value. -/
def statusTotalEpisodesAfter (prev : ℚ) (budget maxTs : ℕ) (term : ℕ → Bool) : ℚ :=
  prev + rolloutTotalEpisodes budget maxTs term

/-- On a freshly terminated step the flush block leaves the state alone: the
cap comparison needs a non-terminated step, and on budget exhaustion the
fractional estimate of the just-zeroed episode length is 0. -/
lemma maxedCase_terminated (budget maxTs ts : ℕ) (eps : ℚ) :
    maxedCase budget maxTs true ⟨ts, 0, 0, eps⟩ = ⟨ts, 0, 0, eps⟩ := by
  simp only [maxedCase]
  by_cases hbud : budget ≤ ts
  · rw [if_pos (Or.inr hbud)]
    simp [hbud]
  · rw [if_neg]
    simp only [not_or]
    exact ⟨fun h => by simp at h, hbud⟩

/-- Loop invariant state for a schedule terminating every maxTs steps: after
t timesteps the episode counters hold t mod maxTs and total_episodes is the
number of completed episodes t / maxTs. -/
def periodicState (maxTs t : ℕ) : RolloutCountState :=
  ⟨t, t % maxTs, t % maxTs, ((t / maxTs : ℕ) : ℚ)⟩

lemma periodic_step (maxTs k : ℕ) (hm : 1 ≤ maxTs) (t : ℕ)
    (ht : t < k * maxTs) :
    rolloutCountStep (k * maxTs) maxTs (fun u => decide (u % maxTs = 0))
        (periodicState maxTs t) = periodicState maxTs (t + 1) := by
  have hdm := Nat.div_add_mod t maxTs
  have hmlt : t % maxTs < maxTs := Nat.mod_lt t (by omega)
  by_cases hterm : (t + 1) % maxTs = 0
  · -- the episode terminates at this step
    have htermb : decide ((t + 1) % maxTs = 0) = true := by simp [hterm]
    have hsucc : t % maxTs + 1 = maxTs := by
      by_contra hne
      have hlt : t % maxTs + 1 < maxTs := by omega
      have hmod : (t + 1) % maxTs = t % maxTs + 1 := by
        conv_lhs => rw [← hdm, Nat.add_assoc]
        rw [Nat.mul_add_mod]
        exact Nat.mod_eq_of_lt hlt
      omega
    have ht1 : t + 1 = maxTs * (t / maxTs + 1) := by
      rw [Nat.mul_add, Nat.mul_one]
      omega
    have hdiv : (t + 1) / maxTs = t / maxTs + 1 := by
      rw [ht1, Nat.mul_div_cancel_left _ (show 0 < maxTs by omega)]
    have hcast : (((t + 1) / maxTs : ℕ) : ℚ) = ((t / maxTs : ℕ) : ℚ) + 1 := by
      rw [hdiv]
      push_cast
      ring
    show maxedCase (k * maxTs) maxTs (decide ((t + 1) % maxTs = 0))
        (termCase (decide ((t + 1) % maxTs = 0)) (t + 1) (t % maxTs + 1)
          (t % maxTs + 1) ((t / maxTs : ℕ) : ℚ)) = periodicState maxTs (t + 1)
    rw [htermb]
    rw [show termCase true (t + 1) (t % maxTs + 1) (t % maxTs + 1)
        ((t / maxTs : ℕ) : ℚ) = ⟨t + 1, 0, 0, ((t / maxTs : ℕ) : ℚ) + 1⟩ from rfl]
    rw [maxedCase_terminated]
    unfold periodicState
    rw [hterm, hcast]
  · -- no termination: the counters advance by one inside the same episode
    have htermb : decide ((t + 1) % maxTs = 0) = false := by simp [hterm]
    have hsucc : t % maxTs + 1 < maxTs := by
      by_contra hge
      have heq : t % maxTs + 1 = maxTs := by omega
      have hmod : (t + 1) % maxTs = 0 := by
        conv_lhs => rw [← hdm, Nat.add_assoc]
        rw [heq, Nat.mul_add_mod, Nat.mod_self]
      omega
    have hmod : (t + 1) % maxTs = t % maxTs + 1 := by
      conv_lhs => rw [← hdm, Nat.add_assoc]
      rw [Nat.mul_add_mod]
      exact Nat.mod_eq_of_lt hsucc
    have hdiv : (t + 1) / maxTs = t / maxTs := by
      conv_lhs => rw [← hdm, Nat.add_assoc]
      rw [Nat.mul_add_div (show 0 < maxTs by omega)]
      rw [Nat.div_eq_of_lt hsucc, Nat.add_zero]
    have hnbud : ¬ k * maxTs ≤ t + 1 := by
      intro hge
      have hteq : t + 1 = k * maxTs := by omega
      have : (t + 1) % maxTs = 0 := by rw [hteq, Nat.mul_mod_left]
      omega
    show maxedCase (k * maxTs) maxTs (decide ((t + 1) % maxTs = 0))
        (termCase (decide ((t + 1) % maxTs = 0)) (t + 1) (t % maxTs + 1)
          (t % maxTs + 1) ((t / maxTs : ℕ) : ℚ)) = periodicState maxTs (t + 1)
    rw [htermb]
    rw [show termCase false (t + 1) (t % maxTs + 1) (t % maxTs + 1)
        ((t / maxTs : ℕ) : ℚ) = ⟨t + 1, t % maxTs + 1, t % maxTs + 1,
          ((t / maxTs : ℕ) : ℚ)⟩ from rfl]
    rw [show maxedCase (k * maxTs) maxTs false ⟨t + 1, t % maxTs + 1,
        t % maxTs + 1, ((t / maxTs : ℕ) : ℚ)⟩ = ⟨t + 1, t % maxTs + 1,
          t % maxTs + 1, ((t / maxTs : ℕ) : ℚ)⟩ from by
      simp only [maxedCase]
      rw [if_neg]
      simp only [not_or]
      exact ⟨fun h => by omega, hnbud⟩]
    unfold periodicState
    rw [hmod, hdiv]

lemma periodic_run (maxTs k : ℕ) (hm : 1 ≤ maxTs) :
    ∀ fuel t, t + fuel = k * maxTs →
      runRolloutCount (k * maxTs) maxTs (fun u => decide (u % maxTs = 0)) fuel
        (periodicState maxTs t) = periodicState maxTs (k * maxTs) := by
  intro fuel
  induction fuel with
  | zero =>
      intro t ht
      simp only [runRolloutCount]
      rw [show t = k * maxTs by omega]
  | succ n ih =>
      intro t ht
      have htlt : t < k * maxTs := by omega
      simp only [runRolloutCount]
      rw [if_pos (show (periodicState maxTs t).totalTs < k * maxTs from htlt)]
      rw [periodic_step maxTs k hm t htlt]
      exact ih (t + 1) (by omega)

/-- Any schedule terminating every maxTs steps with budget = k * maxTs ends
the rollout with exactly k counted episodes. -/
lemma rolloutTotalEpisodes_periodic (maxTs k : ℕ) (hm : 1 ≤ maxTs) :
    rolloutTotalEpisodes (k * maxTs) maxTs (fun u => decide (u % maxTs = 0)) = k := by
  unfold rolloutTotalEpisodes
  have hinit : (⟨0, 0, 0, 0⟩ : RolloutCountState) = periodicState maxTs 0 := by
    unfold periodicState
    simp
  rw [hinit, periodic_run maxTs k hm (k * maxTs) 0 (by omega)]
  unfold periodicState
  simp only
  rw [Nat.mul_div_cancel _ (show 0 < maxTs by omega)]

/-- Claim C8: a single-agent rollout of exactly ts_per_rollout = 256
timesteps with max_ts_per_ep = 32, no truncation, and the environment
terminating each episode at its 32nd step, counts exactly 8 completed
episodes, and status["general"]["total episodes"] grows by exactly 8. -/
theorem c8_episode_count (prev : ℚ) :
    rolloutTotalEpisodes 256 32 (fun u => decide (u % 32 = 0)) = 8 ∧
    statusTotalEpisodesAfter prev 256 32 (fun u => decide (u % 32 = 0)) = prev + 8 := by
  have h256 : (256 : ℕ) = 8 * 32 := by norm_num
  have h := rolloutTotalEpisodes_periodic 32 8 (by norm_num)
  unfold statusTotalEpisodesAfter rolloutTotalEpisodes
  unfold rolloutTotalEpisodes at h
  rw [h256, h]
  norm_num

/-! ### Episode-end calls of one rollout step (PPO.rollout lines 1029-1311)

After stepping the environment, the rollout resolves simultaneous
terminated+truncated flags by preferring truncation (PPO.verify_truncated,
lines 872-895, which also asserts that truncation is all-or-nothing across
agents), derives the terminated environment indices from the first agent's
array (PPO.get_terminated_envs, lines 766-793), and issues
Policy.end_episodes calls: for terminated indices (case 1, lines 1145-1159)
with terminal flags all True and ending values and rewards all zero; for
indices that hit the episode cap, exhaust the rollout budget, or are
truncated (cases 2 and 3, lines 1201-1267) with terminal flags all False and
the next critic values as ending values and rewards.  The embedding covers
policies without ICM (enable_icm False), so no surprise bonus enters the
ending rewards.
-/

/-- Arguments of one Policy.end_episodes call issued by the rollout. -/
structure EndEpisodesCall where
  agent : ℕ
  envIdxs : List ℕ
  terminal : List Bool
  endingValues : List ℚ
  endingRewards : List ℚ
deriving DecidableEq

/-- Indices of the True entries of a numpy boolean array (np.where), in
ascending order. -/
def whereTrue (flags : List Bool) : List ℕ :=
  (List.range flags.length).filter (fun i => flags.getD i false)

/-- Source PPO.verify_truncated: the terminated array of one agent after the
indices truncated for the first agent are forced to False. -/
def fixedTerminated (truncFirst term : List Bool) : List Bool :=
  (List.range term.length).map
    (fun i => if truncFirst.getD i false then false else term.getD i false)

/-- Source PPO.rollout lines 1029-1311 restricted to the Policy.end_episodes
calls of one step (policies without ICM).  Arguments: the agent ids of the
step's dictionaries in iteration order, the per-agent terminated and
truncated arrays returned by env.step, the per-agent detached (denormalized)
next critic values, the per-environment episode timestep counters after this
step's increment (case 1 zeroes them at the terminated indices before the
cases 2 and 3 checks read them), the episode cap max_ts_per_ep, the running
and budget timestep counts, and the environment batch size.  All
per-environment lists have the batch size as length.  Returns the issued
calls, case 1 first, or none when the all-or-nothing truncation assert
fails. -/
def processStepDones (agents : List ℕ) (term trunc : ℕ → List Bool)
    (nextValue : ℕ → List ℚ) (epTs : List ℕ)
    (maxTsPerEp totalRolloutTs tsPerRollout envBatchSize : ℕ) :
    Option (List EndEpisodesCall) :=
  let firstAgent := agents.headD 0
  let whereTruncated := whereTrue (trunc firstAgent)
  if ∀ a ∈ agents, ∀ i ∈ whereTruncated, (trunc a).getD i false = true then
    let termFixed := fixedTerminated (trunc firstAgent) (term firstAgent)
    let whereTerm := whereTrue termFixed
    let termCount := whereTerm.length
    let case1Calls :=
      if 0 < termCount then
        agents.map (fun a =>
          EndEpisodesCall.mk a whereTerm (List.replicate termCount true)
            (List.replicate termCount 0) (List.replicate termCount 0))
      else []
    let whereNotTerm :=
      (List.range envBatchSize).filter (fun i => !(termFixed.getD i false))
    let epTsA := (List.range epTs.length).map
      (fun i => if i ∈ whereTerm then 0 else epTs.getD i 0)
    let case23Calls :=
      if ((∃ e ∈ epTsA, e = maxTsPerEp) ∧ whereNotTerm ≠ []) ∨
          tsPerRollout ≤ totalRolloutTs ∨ whereTruncated ≠ [] then
        let base :=
          if tsPerRollout ≤ totalRolloutTs then List.range envBatchSize
          else (List.range envBatchSize).filter
            (fun i => decide (maxTsPerEp ≤ epTsA.getD i 0))
        let whereMaxed := (List.range envBatchSize).filter
          (fun i => decide ((i ∈ base ∧ i ∉ whereTerm) ∨ i ∈ whereTruncated))
        let maxedCount := whereMaxed.length
        if 0 < maxedCount then
          agents.map (fun a =>
            EndEpisodesCall.mk a whereMaxed (List.replicate maxedCount false)
              (nextValue a) (nextValue a))
        else []
      else []
    some (case1Calls ++ case23Calls)
  else none

lemma mem_whereTrue {flags : List Bool} {i : ℕ} :
    i ∈ whereTrue flags ↔ i < flags.length ∧ flags.getD i false = true := by
  unfold whereTrue
  simp [List.mem_filter, List.mem_range]

lemma getD_map_range (f : ℕ → Bool) (n i : ℕ) (hi : i < n) (d : Bool) :
    ((List.range n).map f).getD i d = f i := by
  rw [List.getD_eq_getElem?_getD, List.getElem?_map, List.getElem?_range hi]
  rfl

/-- Claim C1, amended: for every environment batch index whose step reports
terminated=True and not simultaneously truncated=True, the rollout closes the
episodes at that index for every agent of the step (each registered with its
policy) by calling end_episodes with terminal flags all True, ending values
all 0 and ending rewards all 0.  The hypotheses that all agents share one
terminated array and one truncated array are the all-or-nothing guarantees of
death masking and of the truncation assert that the rollout relies on. -/
theorem c1_terminated_zero_flush (a0 : ℕ) (rest : List ℕ)
    (term trunc : ℕ → List Bool) (nextValue : ℕ → List ℚ) (epTs : List ℕ)
    (maxTsPerEp totalRolloutTs tsPerRollout envBatchSize idx : ℕ)
    (htrunc : ∀ a ∈ a0 :: rest, trunc a = trunc a0)
    (hidx : idx < (term a0).length)
    (hT : (term a0).getD idx false = true)
    (hF : (trunc a0).getD idx false = false) :
    ∃ calls, processStepDones (a0 :: rest) term trunc nextValue epTs maxTsPerEp
        totalRolloutTs tsPerRollout envBatchSize = some calls ∧
      ∀ a ∈ a0 :: rest, ∃ c ∈ calls, c.agent = a ∧ idx ∈ c.envIdxs ∧
        (∀ b ∈ c.terminal, b = true) ∧ (∀ v ∈ c.endingValues, v = 0) ∧
        (∀ r ∈ c.endingRewards, r = 0) := by
  have hassert : ∀ a ∈ a0 :: rest, ∀ i ∈ whereTrue (trunc ((a0 :: rest).headD 0)),
      (trunc a).getD i false = true := by
    intro a ha i hi
    rw [htrunc a ha]
    exact (mem_whereTrue.mp (by simpa using hi)).2
  have hwt : idx ∈ whereTrue (fixedTerminated (trunc a0) (term a0)) := by
    apply mem_whereTrue.mpr
    constructor
    · simpa [fixedTerminated] using hidx
    · unfold fixedTerminated
      rw [getD_map_range _ _ _ hidx, hF]
      simpa using hT
  have htc : 0 < (whereTrue (fixedTerminated (trunc a0) (term a0))).length :=
    List.length_pos_of_mem hwt
  simp only [processStepDones, List.headD_cons]
  rw [if_pos (by simpa using hassert)]
  refine ⟨_, rfl, ?_⟩
  intro a ha
  rw [if_pos htc]
  refine ⟨EndEpisodesCall.mk a (whereTrue (fixedTerminated (trunc a0) (term a0)))
    (List.replicate (whereTrue (fixedTerminated (trunc a0) (term a0))).length true)
    (List.replicate (whereTrue (fixedTerminated (trunc a0) (term a0))).length 0)
    (List.replicate (whereTrue (fixedTerminated (trunc a0) (term a0))).length 0),
    List.mem_append_left _ (List.mem_map_of_mem _ ha), rfl, hwt, ?_, ?_, ?_⟩
  · intro b hb
    exact List.eq_of_mem_replicate hb
  · intro v hv
    exact List.eq_of_mem_replicate hv
  · intro r hr
    exact List.eq_of_mem_replicate hr

/-- Closed instance of c1_terminated_zero_flush: two agents, two environment
indices, index 1 terminated and not truncated. -/
theorem c1_terminated_zero_flush_witness :
    ((∀ a ∈ [0, 1], (fun _ : ℕ => [false, false]) a = (fun _ : ℕ => [false, false]) 0) ∧
      1 < ((fun _ : ℕ => [false, true]) 0).length ∧
      ((fun _ : ℕ => [false, true]) 0).getD 1 false = true ∧
      ((fun _ : ℕ => [false, false]) 0).getD 1 false = false) ∧
    (∃ calls, processStepDones [0, 1] (fun _ => [false, true])
        (fun _ => [false, false]) (fun _ => [3, 7]) [1, 1] 32 2 256 2 = some calls ∧
      ∀ a ∈ [0, 1], ∃ c ∈ calls, c.agent = a ∧ 1 ∈ c.envIdxs ∧
        (∀ b ∈ c.terminal, b = true) ∧ (∀ v ∈ c.endingValues, v = 0) ∧
        (∀ r ∈ c.endingRewards, r = 0)) :=
  ⟨⟨fun a _ => rfl, by decide, by decide, by decide⟩,
    c1_terminated_zero_flush 0 [1] (fun _ => [false, true]) (fun _ => [false, false])
      (fun _ => [3, 7]) [1, 1] 32 2 256 2 1 (fun a _ => rfl) (by decide) (by decide)
      (by decide)⟩

/-- Claim C1 as stated is false at simultaneous terminated and truncated
flags: with one agent and one environment index whose step reports both
terminated=True and truncated=True, verify_truncated rewrites terminated to
False and the index is flushed through the truncation path, so the only
end_episodes call carries terminal flags all False and the bootstrap critic
value 5 instead of terminal True with value and reward 0. -/
theorem c1_counterexample :
    ((fun _ : ℕ => [true]) 0).getD 0 false = true ∧
    processStepDones [0] (fun _ => [true]) (fun _ => [true]) (fun _ => [5]) [1]
        32 1 256 1 = some [EndEpisodesCall.mk 0 [0] [false] [5] [5]] ∧
    ¬ ∃ c ∈ [EndEpisodesCall.mk 0 [0] [false] [5] [5]],
        (∀ b ∈ c.terminal, b = true) ∧ (∀ v ∈ c.endingValues, v = 0) := by
  refine ⟨by decide, ?_, ?_⟩
  · decide
  · decide

end PpoAndFriends
